import Mathlib

/-!
Verification of the cache/staleness/reconciliation engine of the monocli
repository (`src/monocli/db/cache.py`, `src/monocli/db/schema.py`, and the
fetch-orchestration parts of `src/monocli/ui/main_screen.py`).

Time model: real (UTC) time is an integer `t` of seconds.  Python's
`datetime.now()` produces a naive *local* timestamp, modelled as the number
`t + tz` where `tz` is the local UTC offset in seconds; SQLite's
`CURRENT_TIMESTAMP` produces a naive *UTC* timestamp, modelled as `t` itself.
Stored timestamp strings are modelled as the corresponding naive numbers and
are compared numerically, exactly as `datetime.fromisoformat` comparison does.
-/

/-- Naive local wall-clock reading, the value of `datetime.now().isoformat()`
at real (UTC) time `t` under local offset `tz`. -/
def pyNow (tz t : Int) : Int := t + tz

/-- `models.MergeRequest` (pydantic model).  Only the fields the cache layer
reads are kept; the remaining columns of the `merge_requests` table are
projections of the serialized model and are never read back by the
`CacheManager` (reads deserialize `raw_json` only). -/
structure MergeRequest where
  iid : Nat
  title : String
  state : String
  source_branch : String
  target_branch : String
deriving DecidableEq, Repr

/-- Work-item records (`models.JiraWorkItem` / `models.TodoistTask`), a tagged
union as used through the `WorkItem` protocol. -/
inductive WorkItem where
  | jira (key : String) (summary : String) (status : String)
  | todoist (id : String) (content : String) (is_completed : Bool)
deriving DecidableEq, Repr

/-- The provider-native identifier used as the `external_id` column by
`CacheManager.set_work_items`: `item.key` for Jira, `item.id` for Todoist. -/
def WorkItem.externalId : WorkItem → String
  | .jira k _ _ => k
  | .todoist i _ _ => i

/-- Python `str.lower()` (character-wise case folding). -/
def strLower (s : String) : String := ⟨s.data.map Char.toLower⟩

/-- Python string `<`: lexicographic comparison by code point. -/
def charListLt : List Char → List Char → Bool
  | [], [] => false
  | [], _ :: _ => true
  | _ :: _, [] => false
  | a :: as, b :: bs => a.val < b.val || (a == b && charListLt as bs)

/-- Python string `<` on whole strings. -/
def strLt (a b : String) : Bool := charListLt a.data b.data

/-- `JiraWorkItem.is_open` / `TodoistTask.is_open` from `models.py`. -/
def WorkItem.isOpen : WorkItem → Bool
  | .jira _ _ status =>
      !(strLower status == "done" || strLower status == "closed" ||
        strLower status == "resolved")
  | .todoist _ _ is_completed => !is_completed

/-- `JiraWorkItem.display_key` / `TodoistTask.display_key` from `models.py`. -/
def WorkItem.displayKey : WorkItem → String
  | .jira k _ _ => k
  | .todoist i _ _ => "TD-" ++ i

/-- One row of the `merge_requests` table.  `raw_json` round-trips the pydantic
model (`model_dump` / `model_validate`), so it is carried as the model itself;
`cached_at` is the naive local timestamp written by `set_merge_requests`. -/
structure MRRow where
  iid : Nat
  rawJson : MergeRequest
  cachedAt : Int
  subsection : String
deriving DecidableEq, Repr

/-- One row of the `work_items` table. -/
structure WIRow where
  externalId : String
  adapterType : String
  rawJson : WorkItem
  cachedAt : Int
  isCompleted : Bool
deriving DecidableEq, Repr

/-- One row of the `cache_metadata` table (`key` is the primary key). -/
structure MetaRow where
  key : String
  lastUpdated : Int
  ttlSeconds : Int
  fetchCount : Nat
  lastError : Option String
deriving DecidableEq, Repr

/-- The persistent store: the three tables the `CacheManager` owns. -/
structure DB where
  mergeRequests : List MRRow
  workItems : List WIRow
  cacheMetadata : List MetaRow
deriving DecidableEq, Repr

def dbEmpty : DB := ⟨[], [], []⟩

/-- `SELECT ... FROM cache_metadata WHERE key = ?` (primary-key lookup). -/
def DB.metaLookup (db : DB) (key : String) : Option MetaRow :=
  db.cacheMetadata.find? (fun r => r.key == key)

/-- `CacheManager.__init__`: the configured default TTL (`DEFAULT_CACHE_TTL`
is 300 seconds). -/
structure CacheManager where
  ttl_seconds : Int
deriving DecidableEq, Repr

def DEFAULT_CACHE_TTL : Int := 300

/-- `DEFAULT_CLEANUP_DAYS = 30` days, in seconds. -/
def CLEANUP_SECONDS : Int := 30 * 86400

/-- `CacheManager._is_cache_valid` (and the public `is_cache_valid` wrapper on
the success path): no metadata row means invalid; otherwise valid iff
`datetime.now() < last_updated + timedelta(seconds=ttl_seconds)`. -/
def is_cache_valid (db : DB) (key : String) (tz t : Int) : Bool :=
  match db.metaLookup key with
  | none => false
  | some row => decide (pyNow tz t < row.lastUpdated + row.ttlSeconds)

/-- `CacheManager._update_metadata` acting on the `cache_metadata` table.
The `INSERT` branch stores the bound parameter `datetime.now().isoformat()`
(naive local time) and `fetch_count = 1`; the `ON CONFLICT ... DO UPDATE`
branch stores `last_updated = CURRENT_TIMESTAMP` (naive UTC time: the bound
local-time parameter is not used there), `ttl_seconds = excluded.ttl_seconds`,
`fetch_count = fetch_count + 1`, `last_error = NULL`. -/
def metaUpsert (m : CacheManager) (l : List MetaRow) (key : String) (tz t : Int) :
    List MetaRow :=
  match l.find? (fun r => r.key == key) with
  | none => l ++ [⟨key, pyNow tz t, m.ttl_seconds, 1, none⟩]
  | some _ =>
      l.map (fun r =>
        if r.key == key then
          { r with lastUpdated := t, ttlSeconds := m.ttl_seconds,
                   fetchCount := r.fetchCount + 1, lastError := none }
        else r)

/-- `CacheManager._update_metadata`.  The `count` argument is accepted but, as
in the source, unused by the SQL statement. -/
def update_metadata (m : CacheManager) (db : DB) (key : String) (_count : Nat)
    (tz t : Int) : DB :=
  { db with cacheMetadata := metaUpsert m db.cacheMetadata key tz t }

/-- `CacheManager._cleanup_old_records`: delete rows of the given table whose
`cached_at` is older than `datetime.now() - timedelta(days=30)`. -/
def cleanup_old_records (db : DB) (table : String) (tz t : Int) : DB :=
  let cutoff := pyNow tz t - CLEANUP_SECONDS
  if table == "merge_requests" then
    { db with mergeRequests := db.mergeRequests.filter (fun r => !(r.cachedAt < cutoff)) }
  else if table == "work_items" then
    { db with workItems := db.workItems.filter (fun r => !(r.cachedAt < cutoff)) }
  else db

/-- Does the `merge_requests` table already hold a row with this
`(iid, subsection)` pair (the table's `UNIQUE(iid, subsection)` constraint)? -/
def mrConflict (rows : List MRRow) (iid : Nat) (sub : String) : Bool :=
  rows.any (fun r => r.iid == iid && r.subsection == sub)

/-- `executemany` of the `INSERT INTO merge_requests ...` statement: rows are
inserted one at a time; a `UNIQUE(iid, subsection)` violation raises
`IntegrityError` after the earlier rows of the batch have already executed
(SQLite does not undo prior statements on a constraint failure).  Returns the
table contents after the batch and whether the whole batch succeeded. -/
def insertMRs : List MRRow → List MRRow → List MRRow × Bool
  | rows, [] => (rows, true)
  | rows, r :: rest =>
      if mrConflict rows r.iid r.subsection then (rows, false)
      else insertMRs (rows ++ [r]) rest

/-- The row `set_merge_requests` builds for one model (the scalar columns are
projections of the model and are elided, see `MRRow`). -/
def mrRowOf (sub : String) (cachedAt : Int) (mr : MergeRequest) : MRRow :=
  ⟨mr.iid, mr, cachedAt, sub⟩

/-- `CacheManager.set_merge_requests`: delete the subsection's rows, insert the
new rows with `cached_at = datetime.now().isoformat()`, then update metadata
under key `"merge_requests"` and run retention cleanup.  If the insert batch
raises (duplicate `(iid, subsection)`), the surrounding `except` swallows the
error: the rows executed so far remain and the metadata update and cleanup
never run. -/
def set_merge_requests (m : CacheManager) (db : DB) (sub : String)
    (mrs : List MergeRequest) (tz t : Int) : DB :=
  let db1 := { db with mergeRequests := db.mergeRequests.filter (fun r => !(r.subsection == sub)) }
  let inserted := insertMRs db1.mergeRequests (mrs.map (mrRowOf sub (pyNow tz t)))
  let db2 := { db1 with mergeRequests := inserted.1 }
  if inserted.2 then
    cleanup_old_records (update_metadata m db2 "merge_requests" mrs.length tz t)
      "merge_requests" tz t
  else db2

/-- Stable insertion into a list sorted by `le` (non-strict), placing the new
element before the first element it compares `le` to. -/
def insertLe {α : Type} (le : α → α → Bool) (a : α) : List α → List α
  | [] => [a]
  | x :: xs => if le a x then a :: x :: xs else x :: insertLe le a xs

/-- Stable insertion sort by `le`: equal-keyed elements keep their original
relative order, as Python's `list.sort` and SQLite result ordering do here. -/
def sortLe {α : Type} (le : α → α → Bool) : List α → List α
  | [] => []
  | x :: xs => insertLe le x (sortLe le xs)

/-- `ORDER BY iid DESC` of the merge-request select (iids are unique within a
subsection, so the order is total). -/
def sortMRDesc (rows : List MRRow) : List MRRow :=
  sortLe (fun a b => b.iid ≤ a.iid) rows

/-- `ORDER BY cached_at DESC` of the work-item select. -/
def sortWIByCachedAtDesc (rows : List WIRow) : List WIRow :=
  sortLe (fun a b => decide (b.cachedAt ≤ a.cachedAt)) rows

/-- `CacheManager.get_merge_requests` (success path): check validity of key
`"merge_requests"`; on an expired cache without `accept_stale` return `None`;
otherwise select the subsection's rows ordered by `iid` descending, returning
`None` when there are no rows and the deserialized models otherwise
(deserializing `raw_json` written by `set_merge_requests` always succeeds,
since it round-trips the pydantic model). -/
def get_merge_requests (db : DB) (subsection : String) (accept_stale : Bool)
    (tz t : Int) : Option (List MergeRequest) :=
  let is_valid := is_cache_valid db "merge_requests" tz t
  if !is_valid && !accept_stale then none
  else
    let rows := sortMRDesc (db.mergeRequests.filter (fun r => r.subsection == subsection))
    if rows.isEmpty then none
    else some (rows.map (fun r => r.rawJson))

/-- `CacheManager.get_work_items` (success path): like
`get_merge_requests` but keyed on `"work_items"`, ordered by `cached_at`
descending, and dispatching on the `adapter_type` column — rows with an
unknown adapter type are skipped. -/
def get_work_items (db : DB) (accept_stale : Bool) (tz t : Int) :
    Option (List WorkItem) :=
  let is_valid := is_cache_valid db "work_items" tz t
  if !is_valid && !accept_stale then none
  else
    let rows := sortWIByCachedAtDesc db.workItems
    if rows.isEmpty then none
    else some (rows.filterMap (fun r =>
      if r.adapterType == "jira" || r.adapterType == "todoist" then some r.rawJson
      else none))

/-- Does the `work_items` table already hold a row with this `external_id`
(the table's `UNIQUE` constraint on `external_id`)? -/
def wiConflict (rows : List WIRow) (eid : String) : Bool :=
  rows.any (fun r => r.externalId == eid)

/-- `executemany` of the `INSERT INTO work_items ...` statement, with the same
partial-batch semantics on a `UNIQUE(external_id)` violation as `insertMRs`. -/
def insertWIs : List WIRow → List WIRow → List WIRow × Bool
  | rows, [] => (rows, true)
  | rows, r :: rest =>
      if wiConflict rows r.externalId then (rows, false)
      else insertWIs (rows ++ [r]) rest

/-- The row `set_work_items` builds for one item: `external_id` is the Jira
key or the Todoist id, `is_completed` is 0 for Jira items. -/
def wiRowOf (cachedAt : Int) : WorkItem → WIRow
  | .jira k s st => ⟨k, "jira", .jira k s st, cachedAt, false⟩
  | .todoist i c comp => ⟨i, "todoist", .todoist i c comp, cachedAt, comp⟩

/-- `CacheManager.set_work_items`: `DELETE FROM work_items` (the whole table),
insert the new rows, then update metadata under key `"work_items"` and run
retention cleanup; a `UNIQUE(external_id)` violation in the batch is swallowed
by the `except`, leaving the partially inserted rows and skipping the metadata
update and cleanup. -/
def set_work_items (m : CacheManager) (db : DB) (items : List WorkItem)
    (tz t : Int) : DB :=
  let db1 := { db with workItems := [] }
  let inserted := insertWIs [] (items.map (wiRowOf (pyNow tz t)))
  let db2 := { db1 with workItems := inserted.1 }
  if inserted.2 then
    cleanup_old_records (update_metadata m db2 "work_items" items.length tz t)
      "work_items" tz t
  else db2

/-- `CacheManager.invalidate`: `None` or `"all"` clears all three tables;
`"merge_requests"` / `"work_items"` clear that record table and the matching
metadata row; any other key is a logged no-op. -/
def invalidate (db : DB) (key : Option String) : DB :=
  match key with
  | none => ⟨[], [], []⟩
  | some k =>
      if k == "all" then ⟨[], [], []⟩
      else if k == "merge_requests" then
        { db with mergeRequests := [],
                  cacheMetadata := db.cacheMetadata.filter (fun r => !(r.key == "merge_requests")) }
      else if k == "work_items" then
        { db with workItems := [],
                  cacheMetadata := db.cacheMetadata.filter (fun r => !(r.key == "work_items")) }
      else db

/-- `CacheManager.record_error`: `INSERT` with
`(key, datetime.now().isoformat(), ttl_seconds, error)` — `fetch_count` takes
the column default 0 — or, on conflict, update only
`last_error = excluded.last_error`. -/
def record_error (m : CacheManager) (db : DB) (key err : String) (tz t : Int) : DB :=
  match db.metaLookup key with
  | none =>
      { db with cacheMetadata :=
          db.cacheMetadata ++ [⟨key, pyNow tz t, m.ttl_seconds, 0, some err⟩] }
  | some _ =>
      { db with cacheMetadata :=
          db.cacheMetadata.map (fun r =>
            if r.key == key then { r with lastError := some err } else r) }

/-- The dictionary `CacheManager.get_cache_info` returns on a metadata hit. -/
structure CacheInfo where
  key : String
  last_updated : Int
  ttl_seconds : Int
  expires_at : Int
  is_valid : Bool
  fetch_count : Nat
  last_error : Option String
deriving DecidableEq, Repr

/-- `CacheManager.get_cache_info` (success path): `None` when no metadata row
exists, otherwise the diagnostic record with
`expires_at = last_updated + ttl_seconds` and
`is_valid = datetime.now() < expires_at`. -/
def get_cache_info (db : DB) (key : String) (tz t : Int) : Option CacheInfo :=
  match db.metaLookup key with
  | none => none
  | some r =>
      some ⟨key, r.lastUpdated, r.ttlSeconds, r.lastUpdated + r.ttlSeconds,
            decide (pyNow tz t < r.lastUpdated + r.ttlSeconds), r.fetchCount, r.lastError⟩

/-! ### Storage-failure semantics of the public operations

Every public `CacheManager` method wraps its whole body in
`try ... except Exception: <log and return the safe default>`.  A storage-layer
failure (I/O error, lock, corruption) raised by any statement inside the body
aborts the operation: SQLite rolls the operation's open transaction back on
such errors, so the store is left as it was, and the `except` handler returns
the safe default instead of re-raising. -/

/-- One run of a public operation against the store: either every storage
statement succeeds, or some statement raises a storage-layer error. -/
inductive StoreRun where
  | ok
  | storageError
deriving DecidableEq, Repr

/-- `CacheManager.get_merge_requests` with its `try`/`except` boundary:
a storage failure is logged and the method returns `None`. -/
def get_merge_requests_run (run : StoreRun) (db : DB) (subsection : String)
    (accept_stale : Bool) (tz t : Int) : Option (List MergeRequest) × DB :=
  match run with
  | .ok => (get_merge_requests db subsection accept_stale tz t, db)
  | .storageError => (none, db)

/-- `CacheManager.get_work_items` with its `try`/`except` boundary. -/
def get_work_items_run (run : StoreRun) (db : DB) (accept_stale : Bool)
    (tz t : Int) : Option (List WorkItem) × DB :=
  match run with
  | .ok => (get_work_items db accept_stale tz t, db)
  | .storageError => (none, db)

/-- Public `CacheManager.is_cache_valid` with its `try`/`except` boundary:
a storage failure is logged and the method returns `False`. -/
def is_cache_valid_run (run : StoreRun) (db : DB) (key : String) (tz t : Int) :
    Bool × DB :=
  match run with
  | .ok => (is_cache_valid db key tz t, db)
  | .storageError => (false, db)

/-- `CacheManager.set_merge_requests` with its `try`/`except` boundary:
on a storage failure the write is rolled back and the method returns
normally. -/
def set_merge_requests_run (run : StoreRun) (m : CacheManager) (db : DB)
    (sub : String) (mrs : List MergeRequest) (tz t : Int) : DB :=
  match run with
  | .ok => set_merge_requests m db sub mrs tz t
  | .storageError => db

/-- `CacheManager.set_work_items` with its `try`/`except` boundary. -/
def set_work_items_run (run : StoreRun) (m : CacheManager) (db : DB)
    (items : List WorkItem) (tz t : Int) : DB :=
  match run with
  | .ok => set_work_items m db items tz t
  | .storageError => db

/-- `CacheManager.invalidate` with its `try`/`except` boundary. -/
def invalidate_run (run : StoreRun) (db : DB) (key : Option String) : DB :=
  match run with
  | .ok => invalidate db key
  | .storageError => db

/-- `CacheManager.record_error` with its `try`/`except` boundary. -/
def record_error_run (run : StoreRun) (m : CacheManager) (db : DB)
    (key err : String) (tz t : Int) : DB :=
  match run with
  | .ok => record_error m db key err tz t
  | .storageError => db

/-- `CacheManager.get_cache_info` with its `try`/`except` boundary:
a storage failure is logged and the method returns `None`. -/
def get_cache_info_run (run : StoreRun) (db : DB) (key : String) (tz t : Int) :
    Option CacheInfo × DB :=
  match run with
  | .ok => (get_cache_info db key tz t, db)
  | .storageError => (none, db)

/-! ### The fetch orchestrator (`ui/main_screen.py`)

`fetch_merge_requests` and `fetch_work_items` are modelled as functions from
the outcome of every external interaction (adapter availability, auth check,
configuration, fetch results, cached reads) to the sequence of cache *writes*
they issue, in order. -/

/-- Result of one awaited adapter call: a value, or a raised exception. -/
inductive FetchOutcome (α : Type) where
  | ok (val : α)
  | raised (msg : String)
deriving DecidableEq, Repr

/-- A write issued against the `CacheManager` by the orchestrator. -/
inductive CacheWrite where
  | setMRs (subsection : String) (mrs : List MergeRequest)
  | setWIs (items : List WorkItem)
  | recErr (key : String) (msg : String)
deriving DecidableEq, Repr

/-- Python `dict` insert `d[k] = v`: overwriting an existing key keeps its
position, a new key is appended (insertion order is preserved). -/
def dictInsert (d : List (Nat × MergeRequest)) (k : Nat) (v : MergeRequest) :
    List (Nat × MergeRequest) :=
  if d.any (fun p => p.1 == k) then
    d.map (fun p => if p.1 == k then (k, v) else p)
  else d ++ [(k, v)]

/-- `main_screen.py` lines 338-343: `all_assigned = {mr.iid: mr for mr in
assigned_mrs}`, then each pending-review MR is added only `if mr.iid not in
all_assigned`; the combined list is `list(all_assigned.values())`. -/
def combined_assigned (assigned_mrs pending_review_mrs : List MergeRequest) :
    List MergeRequest :=
  let d := assigned_mrs.foldl (fun d mr => dictInsert d mr.iid mr) []
  let d := pending_review_mrs.foldl
    (fun d mr => if d.any (fun p => p.1 == mr.iid) then d else d ++ [(mr.iid, mr)]) d
  d.map (fun p => p.2)

/-- Everything `MainScreen.fetch_merge_requests` observes from outside the
cache: the offline flag, the `glab` availability and auth checks, the
configured GitLab group (`none` models a raised `ConfigError`), and the three
`fetch_assigned_mrs` calls (assignee `@me`, reviewer `@me`, author `@me`). -/
structure MREnv where
  offline_mode : Bool
  is_available : Bool
  check_auth : FetchOutcome Bool
  gitlab_group : Option String
  fetch_assigned : FetchOutcome (List MergeRequest)
  fetch_review : FetchOutcome (List MergeRequest)
  fetch_authored : FetchOutcome (List MergeRequest)
deriving DecidableEq, Repr

/-- The cache writes `MainScreen.fetch_merge_requests` issues: in offline mode,
or when `glab` is unavailable, unauthenticated, unconfigured, or any of the
three fetches raises (the `except` falls back to stale cache), nothing is
written; when all three fetches return, both subsections are written —
`"assigned"` with the deduplicated combination and `"opened"` with the
authored list. -/
def fetch_merge_requests_writes (env : MREnv) : List CacheWrite :=
  if env.offline_mode then []
  else if !env.is_available then []
  else
    match env.check_auth with
    | .raised _ => []
    | .ok false => []
    | .ok true =>
        match env.gitlab_group with
        | none => []
        | some _ =>
            match env.fetch_assigned, env.fetch_review, env.fetch_authored with
            | .ok assigned, .ok pending, .ok authored =>
                [.setMRs "assigned" (combined_assigned assigned pending),
                 .setMRs "opened" authored]
            | _, _, _ => []

/-- Outcome of one work-item adapter in `fetch_work_items`: skipped (not
available / not authenticated / no token / import error), fetched items, or a
raised exception whose message is recorded via `record_error`. -/
inductive AdapterOutcome where
  | skipped
  | fetched (items : List WorkItem)
  | failed (msg : String)
deriving DecidableEq, Repr

/-- Python sort key `(not i.is_open(), i.display_key())`, as a Boolean
non-strict comparison (tuple order with `False < True`, then string order). -/
def wiLe (a b : WorkItem) : Bool :=
  let ka : Nat := if a.isOpen then 0 else 1
  let kb : Nat := if b.isOpen then 0 else 1
  ka < kb || (ka == kb && !(strLt b.displayKey a.displayKey))

/-- `items.sort(key=lambda i: (not i.is_open(), i.display_key()))` — Python's
stable sort. -/
def sortWorkItems (items : List WorkItem) : List WorkItem :=
  sortLe wiLe items

/-- The item list `fetch_work_items` accumulates before deciding whether to
write: the cached items shown first (when not in offline mode and the cached
read hit), then the successfully fetched Jira items, then the successfully
fetched Todoist tasks — concatenated, with no deduplication. -/
def work_items_combined (cached : Option (List WorkItem))
    (jira todoist : AdapterOutcome) : List WorkItem :=
  let items := match cached with
    | some l => l
    | none => []
  let items := match jira with
    | .fetched l => items ++ l
    | _ => items
  match todoist with
  | .fetched l => items ++ l
  | _ => items

/-- The `record_error` writes issued while fetching work items, in order. -/
def work_items_err_writes (jira todoist : AdapterOutcome) : List CacheWrite :=
  (match jira with
   | .failed m => [CacheWrite.recErr "work_items" ("Jira: " ++ m)]
   | _ => []) ++
  (match todoist with
   | .failed m => [CacheWrite.recErr "work_items" ("Todoist: " ++ m)]
   | _ => [])

/-- The cache writes `MainScreen.fetch_work_items` issues: in offline mode
nothing is written; otherwise each failed adapter records its error, and
`set_work_items` is called with the sorted accumulated list only when that
list is non-empty (`if items:`) — when it is empty the code falls back to
stale cache and writes nothing. -/
def fetch_work_items_writes (offline_mode : Bool)
    (cached : Option (List WorkItem)) (jira todoist : AdapterOutcome) :
    List CacheWrite :=
  if offline_mode then []
  else
    let items := work_items_combined cached jira todoist
    work_items_err_writes jira todoist ++
      (if items.isEmpty then [] else [CacheWrite.setWIs (sortWorkItems items)])

/-- Did this awaited adapter call raise? -/
def FetchOutcome.isRaised {α : Type} : FetchOutcome α → Bool
  | .raised _ => true
  | .ok _ => false

/-! ### Concrete instances used by evaluations and witnesses -/

def cm300 : CacheManager := ⟨300⟩

def mrEx1 : MergeRequest := ⟨1, "Test MR 1", "opened", "feature-1", "main"⟩

def mrEx2 : MergeRequest := ⟨2, "Test MR 2", "merged", "feature-2", "main"⟩

/-- A record sharing `mrEx1`'s iid with different payload. -/
def mrEx1b : MergeRequest := ⟨1, "Other title", "opened", "feature-x", "main"⟩

/-- State after `set_merge_requests("assigned", [mrEx1])` on an empty store at
real time 1000000 with the local clock one hour east of UTC. -/
def dbAfterFirstSet : DB :=
  set_merge_requests cm300 dbEmpty "assigned" [mrEx1] 3600 1000000

/-- State after calling the same `set_merge_requests` a second time, at the
same instant. -/
def dbAfterSecondSet : DB :=
  set_merge_requests cm300 dbAfterFirstSet "assigned" [mrEx1] 3600 1000000

/-- A store holding a merge-request row but no `cache_metadata` row. -/
def dbRowsNoMeta : DB := ⟨[⟨1, mrEx1, 0, "assigned"⟩], [], []⟩

/-- A cached Jira item and a freshly refetched copy of the same issue. -/
def wiOld : WorkItem := .jira "PROJ-1" "Old summary" "To Do"

def wiNew : WorkItem := .jira "PROJ-1" "New summary" "To Do"

/-- A fully successful merge-request fetch environment. -/
def envEx : MREnv :=
  ⟨false, true, .ok true, some "mygroup", .ok [mrEx1], .ok [mrEx2], .ok []⟩

/-! ### Helper lemmas -/

theorem find?_filter_ne (l : List MetaRow) (k : String) :
    (l.filter (fun r => !(r.key == k))).find? (fun r => r.key == k) = none := by
  induction l with
  | nil => rfl
  | cons a tl ih =>
      cases h : (a.key == k) with
      | true => simp [List.filter_cons, h, ih]
      | false => simp [List.filter_cons, h, List.find?_cons, ih]

theorem find?_map_keyPres (g : MetaRow → MetaRow) (hg : ∀ r, (g r).key = r.key)
    (l : List MetaRow) (k : String) :
    (l.map g).find? (fun r => r.key == k) = (l.find? (fun r => r.key == k)).map g := by
  induction l with
  | nil => rfl
  | cons a tl ih =>
      simp only [List.map_cons, List.find?_cons, hg a]
      cases h : (a.key == k) <;> simp [h, ih]

theorem mrConflict_append (rows : List MRRow) (r0 : MRRow) (i : Nat) (s : String) :
    mrConflict (rows ++ [r0]) i s
      = (mrConflict rows i s || (r0.iid == i && r0.subsection == s)) := by
  simp [mrConflict, List.any_append]

theorem insertMRs_ok (new : List MRRow) : ∀ (rows : List MRRow),
    ((new.map (fun r => (r.iid, r.subsection))).Nodup) →
    (∀ r ∈ new, mrConflict rows r.iid r.subsection = false) →
    insertMRs rows new = (rows ++ new, true) := by
  induction new with
  | nil => intro rows _ _; simp [insertMRs]
  | cons r rest ih =>
      intro rows hnd hconf
      have hr : mrConflict rows r.iid r.subsection = false :=
        hconf r (List.mem_cons_self _ _)
      rw [List.map_cons] at hnd
      have hnd0 := List.nodup_cons.mp hnd
      have hconf' : ∀ x ∈ rest, mrConflict (rows ++ [r]) x.iid x.subsection = false := by
        intro x hx
        rw [mrConflict_append]
        have h1 : mrConflict rows x.iid x.subsection = false :=
          hconf x (List.mem_cons_of_mem _ hx)
        have h2 : (r.iid == x.iid && r.subsection == x.subsection) = false := by
          cases h : (r.iid == x.iid && r.subsection == x.subsection) with
          | false => rfl
          | true =>
              exfalso
              rw [Bool.and_eq_true] at h
              obtain ⟨h3, h4⟩ := h
              have e1 : r.iid = x.iid := by simpa using h3
              have e2 : r.subsection = x.subsection := by simpa using h4
              exact hnd0.1 (List.mem_map.mpr ⟨x, hx, by rw [← e1, ← e2]⟩)
        simp [h1, h2]
      have hnd' : (rest.map (fun x => (x.iid, x.subsection))).Nodup := hnd0.2
      simp [insertMRs, hr, ih (rows ++ [r]) hnd' hconf']

theorem insertLe_perm {α : Type} (le : α → α → Bool) (a : α) (l : List α) :
    (insertLe le a l).Perm (a :: l) := by
  induction l with
  | nil => exact List.Perm.refl _
  | cons x xs ih =>
      simp only [insertLe]
      cases h : le a x with
      | true => simp [h]
      | false =>
          simp only [h, Bool.false_eq_true, if_false]
          exact (ih.cons x).trans (List.Perm.swap a x xs)

theorem sortLe_perm {α : Type} (le : α → α → Bool) (l : List α) :
    (sortLe le l).Perm l := by
  induction l with
  | nil => exact List.Perm.refl _
  | cons x xs ih => exact (insertLe_perm le x (sortLe le xs)).trans (ih.cons x)

theorem sortLe_eq_nil_iff {α : Type} (le : α → α → Bool) (l : List α) :
    sortLe le l = [] ↔ l = [] := by
  constructor
  · intro h
    have := (sortLe_perm le l).length_eq
    rw [h] at this
    exact List.eq_nil_of_length_eq_zero this.symm
  · intro h; subst h; rfl

theorem set_mr_ok (m : CacheManager) (db : DB) (sub : String)
    (mrs : List MergeRequest) (tz t : Int)
    (h : (mrs.map (fun mr => mr.iid)).Nodup) :
    set_merge_requests m db sub mrs tz t =
      cleanup_old_records
        (update_metadata m
          ⟨db.mergeRequests.filter (fun r => !(r.subsection == sub))
              ++ mrs.map (mrRowOf sub (pyNow tz t)),
           db.workItems, db.cacheMetadata⟩
          "merge_requests" mrs.length tz t)
        "merge_requests" tz t := by
  have hkeys : ((mrs.map (mrRowOf sub (pyNow tz t))).map
      (fun r => (r.iid, r.subsection))).Nodup := by
    have hcomp : (mrs.map (mrRowOf sub (pyNow tz t))).map (fun r => (r.iid, r.subsection))
        = (mrs.map (fun mr => mr.iid)).map (fun i => (i, sub)) := by
      simp [List.map_map, mrRowOf]
    rw [hcomp]
    exact h.map (fun a b hab => by simpa using congrArg Prod.fst hab)
  have hconf : ∀ r ∈ mrs.map (mrRowOf sub (pyNow tz t)),
      mrConflict (db.mergeRequests.filter (fun r => !(r.subsection == sub)))
        r.iid r.subsection = false := by
    intro r hr
    obtain ⟨mr, _, hmr⟩ := List.mem_map.mp hr
    subst hmr
    rw [mrConflict]
    rw [List.any_eq_false]
    intro x hx
    have hxs := List.of_mem_filter hx
    simp only [mrRowOf, Bool.not_eq_true'] at hxs ⊢
    simp [hxs]
  simp only [set_merge_requests,
    insertMRs_ok (mrs.map (mrRowOf sub (pyNow tz t)))
      (db.mergeRequests.filter (fun r => !(r.subsection == sub))) hkeys hconf]
  simp

theorem set_mr_meta (m : CacheManager) (db : DB) (sub : String)
    (mrs : List MergeRequest) (tz t : Int)
    (h : (mrs.map (fun mr => mr.iid)).Nodup) :
    (set_merge_requests m db sub mrs tz t).cacheMetadata
      = metaUpsert m db.cacheMetadata "merge_requests" tz t := by
  rw [set_mr_ok m db sub mrs tz t h]
  simp [cleanup_old_records, update_metadata]

theorem set_mr_workItems (m : CacheManager) (db : DB) (sub : String)
    (mrs : List MergeRequest) (tz t : Int)
    (h : (mrs.map (fun mr => mr.iid)).Nodup) :
    (set_merge_requests m db sub mrs tz t).workItems = db.workItems := by
  rw [set_mr_ok m db sub mrs tz t h]
  simp [cleanup_old_records, update_metadata]

theorem set_mr_rows (m : CacheManager) (db : DB) (sub : String)
    (mrs : List MergeRequest) (tz t : Int)
    (h : (mrs.map (fun mr => mr.iid)).Nodup) :
    (set_merge_requests m db sub mrs tz t).mergeRequests
      = (db.mergeRequests.filter (fun r => !(r.subsection == sub))
          ++ mrs.map (mrRowOf sub (pyNow tz t))).filter
          (fun r => !(r.cachedAt < pyNow tz t - CLEANUP_SECONDS)) := by
  rw [set_mr_ok m db sub mrs tz t h]
  simp [cleanup_old_records, update_metadata]

theorem set_mr_rows_sub (m : CacheManager) (db : DB) (sub : String)
    (mrs : List MergeRequest) (tz t : Int)
    (h : (mrs.map (fun mr => mr.iid)).Nodup) :
    (set_merge_requests m db sub mrs tz t).mergeRequests.filter
        (fun r => r.subsection == sub)
      = mrs.map (mrRowOf sub (pyNow tz t)) := by
  rw [set_mr_rows m db sub mrs tz t h]
  rw [List.filter_filter, List.filter_append]
  have hA : (db.mergeRequests.filter (fun r => !(r.subsection == sub))).filter
      (fun r => r.subsection == sub && !(r.cachedAt < pyNow tz t - CLEANUP_SECONDS))
        = [] := by
    rw [List.filter_eq_nil_iff]
    intro x hx
    have hxs := List.of_mem_filter hx
    simp only [Bool.not_eq_true'] at hxs
    simp [hxs]
  have hB : (mrs.map (mrRowOf sub (pyNow tz t))).filter
      (fun r => r.subsection == sub && !(r.cachedAt < pyNow tz t - CLEANUP_SECONDS))
        = mrs.map (mrRowOf sub (pyNow tz t)) := by
    rw [List.filter_eq_self]
    intro x hx
    obtain ⟨mr, _, hmr⟩ := List.mem_map.mp hx
    subst hmr
    have hc : (pyNow tz t < pyNow tz t - CLEANUP_SECONDS) = False := by
      simp only [CLEANUP_SECONDS, eq_iff_iff, iff_false]
      omega
    simp [mrRowOf, hc]
  rw [hA, hB, List.nil_append]

theorem find?_append_of_none (l l' : List MetaRow) (p : MetaRow → Bool)
    (h : l.find? p = none) : (l ++ l').find? p = l'.find? p := by
  induction l with
  | nil => rfl
  | cons a tl ih =>
      rw [List.find?_cons] at h
      cases hp : p a with
      | true => rw [hp] at h; exact absurd h (by simp)
      | false =>
          rw [hp] at h
          simpa [List.find?_cons, hp] using ih h

theorem metaUpsert_find (m : CacheManager) (l : List MetaRow) (key : String)
    (tz t : Int) :
    (metaUpsert m l key tz t).find? (fun r => r.key == key)
      = some (match l.find? (fun r => r.key == key) with
          | none => ⟨key, pyNow tz t, m.ttl_seconds, 1, none⟩
          | some r => ⟨r.key, t, m.ttl_seconds, r.fetchCount + 1, none⟩) := by
  cases hfind : l.find? (fun r => r.key == key) with
  | none =>
      rw [metaUpsert, hfind, find?_append_of_none l _ _ hfind]
      simp [List.find?_cons]
  | some r =>
      have hkey : (r.key == key) = true := by
        simpa using List.find?_some (p := fun r : MetaRow => r.key == key) hfind
      rw [metaUpsert, hfind]
      rw [find?_map_keyPres (fun r =>
        if r.key == key then
          { r with lastUpdated := t, ttlSeconds := m.ttl_seconds,
                   fetchCount := r.fetchCount + 1, lastError := none }
        else r) (fun r => by by_cases h : (r.key == key) = true <;> simp [h]) l key]
      rw [hfind]
      simp only [Option.map_some']
      rw [if_pos hkey]

theorem record_error_meta_conflict (m : CacheManager) (db : DB) (key err : String)
    (tz t : Int) (row : MetaRow) (h : db.metaLookup key = some row) :
    (record_error m db key err tz t).cacheMetadata
      = db.cacheMetadata.map (fun r =>
          if r.key == key then { r with lastError := some err } else r) := by
  rw [record_error, h]

theorem record_error_lookup_any (m : CacheManager) (db : DB) (key err : String)
    (tz t : Int) (row : MetaRow) (h : db.metaLookup key = some row) (k : String) :
    (record_error m db key err tz t).metaLookup k
      = (db.metaLookup k).map (fun r =>
          if r.key == key then { r with lastError := some err } else r) := by
  rw [DB.metaLookup, record_error_meta_conflict m db key err tz t row h]
  rw [find?_map_keyPres (fun r => if r.key == key then { r with lastError := some err } else r)
    (fun r => by by_cases hk : (r.key == key) = true <;> simp [hk]) db.cacheMetadata k]
  rfl

theorem record_error_valid_eq (m : CacheManager) (db : DB) (key err : String)
    (tz t : Int) (row : MetaRow) (h : db.metaLookup key = some row)
    (k : String) (tz2 t2 : Int) :
    is_cache_valid (record_error m db key err tz t) k tz2 t2
      = is_cache_valid db k tz2 t2 := by
  rw [is_cache_valid, is_cache_valid, record_error_lookup_any m db key err tz t row h k]
  cases db.metaLookup k with
  | none => rfl
  | some r => by_cases hk : r.key = key <;> simp [hk]

theorem sorted_rows_perm (sub : String) (c : Int) (mrs : List MergeRequest) :
    ((sortMRDesc (mrs.map (mrRowOf sub c))).map (fun r => r.rawJson)).Perm mrs := by
  have h1 : (sortMRDesc (mrs.map (mrRowOf sub c))).Perm (mrs.map (mrRowOf sub c)) :=
    sortLe_perm _ _
  have h2 := h1.map (fun r => r.rawJson)
  rw [List.map_map] at h2
  have hmap : List.map ((fun r : MRRow => r.rawJson) ∘ mrRowOf sub c) mrs = mrs := by
    have hfun : ((fun r : MRRow => r.rawJson) ∘ mrRowOf sub c) = fun mr => mr :=
      funext (fun mr => rfl)
    rw [hfun, List.map_id']
  rw [hmap] at h2
  exact h2

theorem get_true_after_set (m : CacheManager) (db : DB) (sub : String)
    (mrs : List MergeRequest) (tz t0 t : Int)
    (h : (mrs.map (fun mr => mr.iid)).Nodup) (hne : mrs ≠ []) :
    get_merge_requests (set_merge_requests m db sub mrs tz t0) sub true tz t
      = some ((sortMRDesc (mrs.map (mrRowOf sub (pyNow tz t0)))).map
          (fun r => r.rawJson)) := by
  have hempty : (sortMRDesc (mrs.map (mrRowOf sub (pyNow tz t0)))).isEmpty = false := by
    cases hcase : sortMRDesc (mrs.map (mrRowOf sub (pyNow tz t0))) with
    | nil =>
        exfalso
        rw [sortMRDesc, sortLe_eq_nil_iff] at hcase
        exact hne (by simpa using hcase)
    | cons a l => rfl
  simp only [get_merge_requests, Bool.not_true, Bool.and_false, Bool.false_eq_true,
    if_false]
  rw [set_mr_rows_sub m db sub mrs tz t0 h]
  simp [hempty]

/-! ### Claim theorems -/

/-- C1 (code bug): TTL correctness fails on the metadata-update path.  With the
local clock one hour east of UTC (`tz = 3600`) and the default TTL of 300
seconds, the cache is valid immediately after the first
`set_merge_requests` (whose metadata `INSERT` stores the local
`datetime.now()`), but immediately INVALID after a second identical set at the
very same instant, because the `ON CONFLICT` branch stores
`last_updated = CURRENT_TIMESTAMP` (UTC) while `_is_cache_valid` compares
against the local `datetime.now()`. -/
theorem ttl_utc_mismatch_eval :
    is_cache_valid dbAfterFirstSet "merge_requests" 3600 1000000 = true ∧
    is_cache_valid dbAfterSecondSet "merge_requests" 3600 1000000 = false := by
  decide

/-- C2 counterexample: after `set_merge_requests("assigned", [])` (a successful
write — the metadata row exists with `fetch_count = 1`) and TTL expiry,
`get_merge_requests("assigned", accept_stale=True)` returns `None` (Miss), not
the empty record set that was last written. -/
theorem stale_accept_empty_cex :
    (set_merge_requests cm300 dbEmpty "assigned" [] 0 0).metaLookup "merge_requests"
      = some ⟨"merge_requests", 0, 300, 1, none⟩ ∧
    is_cache_valid (set_merge_requests cm300 dbEmpty "assigned" [] 0 0)
      "merge_requests" 0 301 = false ∧
    get_merge_requests (set_merge_requests cm300 dbEmpty "assigned" [] 0 0)
      "assigned" true 0 301 = none := by
  decide

/-- C3 counterexample: on a store holding a merge-request row but no
`cache_metadata` row, `get_merge_requests` with `accept_stale=True` returns
the row's record rather than Miss — the claim's "Miss for both values of
acceptStale regardless of record rows" is false. -/
theorem no_metadata_rows_cex :
    dbRowsNoMeta.metaLookup "merge_requests" = none ∧
    get_merge_requests dbRowsNoMeta "assigned" true 0 0 = some [mrEx1] := by
  decide

/-- C4 counterexample: with a record list containing two records of the same
iid, both `set_merge_requests` calls violate `UNIQUE(iid, subsection)` inside
`executemany`, the swallowed `IntegrityError` skips `_update_metadata`, and
after calling set twice on an empty store there is still no metadata row at
all — `fetch_count` is not incremented by 2 (and `last_error` is not cleared
by writing `NULL` to an existing row). -/
theorem upsert_dup_iid_cex :
    (set_merge_requests cm300
        (set_merge_requests cm300 dbEmpty "assigned" [mrEx1, mrEx1b] 0 0)
        "assigned" [mrEx1, mrEx1b] 0 0).metaLookup "merge_requests" = none := by
  decide

/-- C7 (code bug): when the work-item cache already holds Jira issue PROJ-1
and a fresh fetch returns the same issue again, `fetch_work_items` passes the
concatenation of the cached and fresh copies to `set_work_items` — two records
with `external_id = "PROJ-1"` — so the written set is not a union keyed by the
external identifier; inside `set_work_items` the duplicate violates the
`work_items` `UNIQUE(external_id)` constraint, and the swallowed
`IntegrityError` silently drops the metadata update for the write. -/
theorem work_items_duplicate_eval :
    fetch_work_items_writes false (some [wiOld]) (AdapterOutcome.fetched [wiNew])
        AdapterOutcome.skipped
      = [CacheWrite.setWIs [wiOld, wiNew]] ∧
    ¬ (([wiOld, wiNew].map WorkItem.externalId).Nodup) ∧
    (set_work_items cm300 dbEmpty [wiOld, wiNew] 0 0).metaLookup "work_items"
      = none := by
  decide

/-- C8 counterexample: a work-item fetch cycle in which both adapter calls
succeed, each returning an empty list, with nothing cached: at least one
adapter call succeeded, yet the orchestrator issues no cache write at all —
in particular no `set` with the (empty) freshly computed result. -/
theorem authoritative_empty_cex :
    fetch_work_items_writes false none (AdapterOutcome.fetched [])
      (AdapterOutcome.fetched []) = [] := by
  decide

/-- C9: storage-failure degradation.  A storage-layer failure in any public
`CacheManager` operation is caught at the operation's `try`/`except`
boundary: the read operations return their safe defaults (`None` for the two
gets and `get_cache_info`, `False` for `is_cache_valid`) and the write
operations return normally with the store unchanged (the operation's
transaction having been rolled back) — no exception propagates to the
caller. -/
theorem storage_failure_safe (m : CacheManager) (db : DB)
    (sub key err : String) (accept_stale : Bool) (mrs : List MergeRequest)
    (items : List WorkItem) (k : Option String) (tz t : Int) :
    get_merge_requests_run StoreRun.storageError db sub accept_stale tz t
        = (none, db) ∧
    get_work_items_run StoreRun.storageError db accept_stale tz t = (none, db) ∧
    is_cache_valid_run StoreRun.storageError db key tz t = (false, db) ∧
    get_cache_info_run StoreRun.storageError db key tz t = (none, db) ∧
    set_merge_requests_run StoreRun.storageError m db sub mrs tz t = db ∧
    set_work_items_run StoreRun.storageError m db items tz t = db ∧
    invalidate_run StoreRun.storageError db k = db ∧
    record_error_run StoreRun.storageError m db key err tz t = db :=
  ⟨rfl, rfl, rfl, rfl, rfl, rfl, rfl, rfl⟩

/-- C5: invalidation completeness.  After `invalidate("merge_requests")`,
`get_merge_requests` with `accept_stale=True` and `get_cache_info` both report
absent for that partition, for any prior state; likewise for
`invalidate("work_items")`; and `invalidate("all")` does the same for every
partition and every metadata key, for either value of `accept_stale`. -/
theorem invalidation_complete (db : DB) (sub : String) (tz t : Int) :
    get_merge_requests (invalidate db (some "merge_requests")) sub true tz t
      = none ∧
    get_cache_info (invalidate db (some "merge_requests")) "merge_requests" tz t
      = none ∧
    get_work_items (invalidate db (some "work_items")) true tz t = none ∧
    get_cache_info (invalidate db (some "work_items")) "work_items" tz t = none ∧
    (∀ (sub2 : String) (accept_stale : Bool),
      get_merge_requests (invalidate db (some "all")) sub2 accept_stale tz t
        = none) ∧
    (∀ accept_stale : Bool,
      get_work_items (invalidate db (some "all")) accept_stale tz t = none) ∧
    (∀ k : String, get_cache_info (invalidate db (some "all")) k tz t = none) := by
  have emr : ("merge_requests" == "all") = false := by decide
  have ewi : ("work_items" == "all") = false := by decide
  have ewm : ("work_items" == "merge_requests") = false := by decide
  have eaa : ("all" == "all") = true := by decide
  refine ⟨?_, ?_, ?_, ?_, ?_, ?_, ?_⟩
  · simp [invalidate, emr, get_merge_requests, sortMRDesc, sortLe]
  · have hnone : List.find? (fun _ : MetaRow => false) db.cacheMetadata = none :=
      List.find?_eq_none.mpr (fun x _ => by simp)
    simp [invalidate, emr, get_cache_info, DB.metaLookup, find?_filter_ne, hnone]
  · simp [invalidate, ewi, ewm, get_work_items, sortWIByCachedAtDesc, sortLe]
  · have hnone : List.find? (fun _ : MetaRow => false) db.cacheMetadata = none :=
      List.find?_eq_none.mpr (fun x _ => by simp)
    simp [invalidate, ewi, ewm, get_cache_info, DB.metaLookup, find?_filter_ne, hnone]
  · intro sub2 accept_stale
    cases accept_stale <;>
      simp [invalidate, eaa, get_merge_requests, is_cache_valid, DB.metaLookup,
        sortMRDesc, sortLe]
  · intro accept_stale
    cases accept_stale <;>
      simp [invalidate, eaa, get_work_items, is_cache_valid, DB.metaLookup,
        sortWIByCachedAtDesc, sortLe]
  · intro k
    simp [invalidate, eaa, get_cache_info, DB.metaLookup]

/-- C2 (amended): stale-accept contract for non-empty writes.  For any record
list with pairwise-distinct iids whose `set_merge_requests` write has expired
(the code's own validity check returns false), `get` without `accept_stale`
returns Miss, while `get` with `accept_stale=True` returns exactly the record
set that was written (as a permutation — the rows come back ordered by iid
descending).  When the last write stored zero records, `get` returns Miss
instead (see the counterexample): zero cached records behave as Miss. -/
theorem stale_accept_amended (m : CacheManager) (db : DB) (sub : String)
    (mrs : List MergeRequest) (tz t0 t : Int)
    (hnodup : (mrs.map (fun mr => mr.iid)).Nodup) (hne : mrs ≠ [])
    (hexp : is_cache_valid (set_merge_requests m db sub mrs tz t0)
      "merge_requests" tz t = false) :
    get_merge_requests (set_merge_requests m db sub mrs tz t0) sub false tz t
      = none ∧
    ∃ l, get_merge_requests (set_merge_requests m db sub mrs tz t0) sub true tz t
      = some l ∧ l.Perm mrs := by
  constructor
  · simp [get_merge_requests, hexp]
  · exact ⟨_, get_true_after_set m db sub mrs tz t0 t hnodup hne,
      sorted_rows_perm sub (pyNow tz t0) mrs⟩

theorem stale_accept_amended_w :
    get_merge_requests (set_merge_requests cm300 dbEmpty "assigned" [mrEx1] 0 0)
        "assigned" false 0 301 = none ∧
    ∃ l, get_merge_requests (set_merge_requests cm300 dbEmpty "assigned" [mrEx1] 0 0)
        "assigned" true 0 301 = some l ∧ l.Perm [mrEx1] :=
  stale_accept_amended cm300 dbEmpty "assigned" [mrEx1] 0 0 301 (by decide)
    (by decide) (by decide)

/-- C3 (amended): for a partition with no metadata row, `get` with
`accept_stale=false` returns Miss regardless of record rows, and `get` with
`accept_stale=true` returns Miss exactly when no record rows are present —
when rows exist they are returned (iid-descending) despite the missing
metadata. -/
theorem no_metadata_amended (db : DB) (sub : String) (tz t : Int)
    (hmr : db.metaLookup "merge_requests" = none)
    (hwi : db.metaLookup "work_items" = none) :
    get_merge_requests db sub false tz t = none ∧
    get_work_items db false tz t = none ∧
    (db.mergeRequests.filter (fun r => r.subsection == sub) = [] →
      get_merge_requests db sub true tz t = none) ∧
    (db.mergeRequests.filter (fun r => r.subsection == sub) ≠ [] →
      get_merge_requests db sub true tz t
        = some ((sortMRDesc (db.mergeRequests.filter
            (fun r => r.subsection == sub))).map (fun r => r.rawJson))) ∧
    (db.workItems = [] → get_work_items db true tz t = none) := by
  have hv1 : is_cache_valid db "merge_requests" tz t = false := by
    simp [is_cache_valid, hmr]
  have hv2 : is_cache_valid db "work_items" tz t = false := by
    simp [is_cache_valid, hwi]
  refine ⟨?_, ?_, ?_, ?_, ?_⟩
  · simp [get_merge_requests, hv1]
  · simp [get_work_items, hv2]
  · intro h0
    simp [get_merge_requests, h0, sortMRDesc, sortLe]
  · intro h0
    have hempty : (sortMRDesc (db.mergeRequests.filter
        (fun r => r.subsection == sub))).isEmpty = false := by
      cases hcase : sortMRDesc (db.mergeRequests.filter
          (fun r => r.subsection == sub)) with
      | nil =>
          exfalso
          rw [sortMRDesc, sortLe_eq_nil_iff] at hcase
          exact h0 hcase
      | cons a l => rfl
    simp [get_merge_requests, hempty]
  · intro h0
    simp [get_work_items, h0, sortWIByCachedAtDesc, sortLe]

theorem no_metadata_amended_w :
    get_merge_requests dbRowsNoMeta "assigned" false 0 0 = none ∧
    get_work_items dbRowsNoMeta false 0 0 = none ∧
    (dbRowsNoMeta.mergeRequests.filter (fun r => r.subsection == "assigned") = [] →
      get_merge_requests dbRowsNoMeta "assigned" true 0 0 = none) ∧
    (dbRowsNoMeta.mergeRequests.filter (fun r => r.subsection == "assigned") ≠ [] →
      get_merge_requests dbRowsNoMeta "assigned" true 0 0
        = some ((sortMRDesc (dbRowsNoMeta.mergeRequests.filter
            (fun r => r.subsection == "assigned"))).map (fun r => r.rawJson))) ∧
    (dbRowsNoMeta.workItems = [] → get_work_items dbRowsNoMeta true 0 0 = none) :=
  no_metadata_amended dbRowsNoMeta "assigned" 0 0 (by decide) (by decide)

/-- C4 (amended): upsert idempotence for record lists with pairwise-distinct
iids.  Calling `set_merge_requests` twice with identical input leaves the
partition's stored record set (projected to iid and payload) identical to the
state after a single call, the metadata row's `fetch_count` is the prior count
plus exactly 2, and `last_error` is cleared.  With duplicate iids in the list
the insert batch fails and `fetch_count` does not advance (see the
counterexample). -/
theorem upsert_idempotence_amended (m : CacheManager) (db : DB) (sub : String)
    (mrs : List MergeRequest) (tz t1 t2 : Int)
    (hnodup : (mrs.map (fun mr => mr.iid)).Nodup) :
    ((set_merge_requests m (set_merge_requests m db sub mrs tz t1) sub mrs tz
        t2).mergeRequests.filter (fun r => r.subsection == sub)).map
        (fun r => (r.iid, r.rawJson))
      = ((set_merge_requests m db sub mrs tz t1).mergeRequests.filter
          (fun r => r.subsection == sub)).map (fun r => (r.iid, r.rawJson)) ∧
    ∃ row, (set_merge_requests m (set_merge_requests m db sub mrs tz t1) sub mrs
        tz t2).metaLookup "merge_requests" = some row ∧
      row.fetchCount = (match db.metaLookup "merge_requests" with
        | none => 0
        | some r => r.fetchCount) + 2 ∧
      row.lastError = none := by
  constructor
  · rw [set_mr_rows_sub m _ sub mrs tz t2 hnodup,
        set_mr_rows_sub m db sub mrs tz t1 hnodup]
    simp [List.map_map, Function.comp, mrRowOf]
  · have hmeta2 : (set_merge_requests m (set_merge_requests m db sub mrs tz t1)
        sub mrs tz t2).cacheMetadata
          = metaUpsert m (metaUpsert m db.cacheMetadata "merge_requests" tz t1)
              "merge_requests" tz t2 := by
      rw [set_mr_meta m _ sub mrs tz t2 hnodup,
          set_mr_meta m db sub mrs tz t1 hnodup]
    have h2 := metaUpsert_find m
      (metaUpsert m db.cacheMetadata "merge_requests" tz t1) "merge_requests" tz t2
    rw [metaUpsert_find m db.cacheMetadata "merge_requests" tz t1] at h2
    cases hdb : db.cacheMetadata.find? (fun r => r.key == "merge_requests") with
    | none =>
        rw [hdb] at h2
        refine ⟨⟨"merge_requests", t2, m.ttl_seconds, 1 + 1, none⟩, ?_, ?_, rfl⟩
        · rw [DB.metaLookup, hmeta2]
          exact h2
        · simp [DB.metaLookup, hdb]
    | some r =>
        rw [hdb] at h2
        refine ⟨⟨r.key, t2, m.ttl_seconds, r.fetchCount + 1 + 1, none⟩, ?_, ?_, rfl⟩
        · rw [DB.metaLookup, hmeta2]
          exact h2
        · simp [DB.metaLookup, hdb]

theorem upsert_idempotence_amended_w :
    ((set_merge_requests cm300 (set_merge_requests cm300 dbEmpty "assigned"
        [mrEx1, mrEx2] 0 0) "assigned" [mrEx1, mrEx2] 0
        10).mergeRequests.filter (fun r => r.subsection == "assigned")).map
        (fun r => (r.iid, r.rawJson))
      = ((set_merge_requests cm300 dbEmpty "assigned" [mrEx1, mrEx2] 0
          0).mergeRequests.filter (fun r => r.subsection == "assigned")).map
          (fun r => (r.iid, r.rawJson)) ∧
    ∃ row, (set_merge_requests cm300 (set_merge_requests cm300 dbEmpty "assigned"
        [mrEx1, mrEx2] 0 0) "assigned" [mrEx1, mrEx2] 0 10).metaLookup
        "merge_requests" = some row ∧
      row.fetchCount = (match dbEmpty.metaLookup "merge_requests" with
        | none => 0
        | some r => r.fetchCount) + 2 ∧
      row.lastError = none :=
  upsert_idempotence_amended cm300 dbEmpty "assigned" [mrEx1, mrEx2] 0 0 10
    (by decide)

/-- C6: error-recording frame.  On a partition key with an existing metadata
row, `record_error` takes the `ON CONFLICT` branch, which sets only
`last_error`: both record tables are untouched, the metadata row keeps its
`last_updated`, `ttl_seconds` and `fetch_count`, and every subsequent `get`
(for any subsection, staleness flag and time) returns exactly what it returned
before the error was recorded. -/
theorem record_error_frame (m : CacheManager) (db : DB) (key msg : String)
    (tz t : Int) (row : MetaRow) (h : db.metaLookup key = some row) :
    (record_error m db key msg tz t).mergeRequests = db.mergeRequests ∧
    (record_error m db key msg tz t).workItems = db.workItems ∧
    (record_error m db key msg tz t).metaLookup key
      = some ⟨row.key, row.lastUpdated, row.ttlSeconds, row.fetchCount, some msg⟩ ∧
    (∀ (sub : String) (accept_stale : Bool) (tz2 t2 : Int),
      get_merge_requests (record_error m db key msg tz t) sub accept_stale tz2 t2
        = get_merge_requests db sub accept_stale tz2 t2) ∧
    (∀ (accept_stale : Bool) (tz2 t2 : Int),
      get_work_items (record_error m db key msg tz t) accept_stale tz2 t2
        = get_work_items db accept_stale tz2 t2) := by
  have hrecs : (record_error m db key msg tz t).mergeRequests
      = db.mergeRequests := by
    rw [record_error, h]
  have hwis : (record_error m db key msg tz t).workItems = db.workItems := by
    rw [record_error, h]
  have hkey : (row.key == key) = true := by
    simpa using List.find?_some (p := fun r : MetaRow => r.key == key) h
  have hlook := record_error_lookup_any m db key msg tz t row h key
  rw [h, Option.map_some'] at hlook
  rw [if_pos hkey] at hlook
  refine ⟨hrecs, hwis, hlook, ?_, ?_⟩
  · intro sub accept_stale tz2 t2
    simp only [get_merge_requests]
    rw [record_error_valid_eq m db key msg tz t row h, hrecs]
  · intro accept_stale tz2 t2
    simp only [get_work_items]
    rw [record_error_valid_eq m db key msg tz t row h, hwis]

theorem record_error_frame_w :
    (record_error cm300 dbAfterFirstSet "merge_requests" "Jira: boom" 3600
        1000001).mergeRequests = dbAfterFirstSet.mergeRequests ∧
    (record_error cm300 dbAfterFirstSet "merge_requests" "Jira: boom" 3600
        1000001).workItems = dbAfterFirstSet.workItems ∧
    (record_error cm300 dbAfterFirstSet "merge_requests" "Jira: boom" 3600
        1000001).metaLookup "merge_requests"
      = some ⟨"merge_requests", 1003600, 300, 1, some "Jira: boom"⟩ ∧
    (∀ (sub : String) (accept_stale : Bool) (tz2 t2 : Int),
      get_merge_requests (record_error cm300 dbAfterFirstSet "merge_requests"
          "Jira: boom" 3600 1000001) sub accept_stale tz2 t2
        = get_merge_requests dbAfterFirstSet sub accept_stale tz2 t2) ∧
    (∀ (accept_stale : Bool) (tz2 t2 : Int),
      get_work_items (record_error cm300 dbAfterFirstSet "merge_requests"
          "Jira: boom" 3600 1000001) accept_stale tz2 t2
        = get_work_items dbAfterFirstSet accept_stale tz2 t2) :=
  record_error_frame cm300 dbAfterFirstSet "merge_requests" "Jira: boom" 3600
    1000001 ⟨"merge_requests", 1003600, 300, 1, none⟩ (by decide)

/-- C10: `record_error` on a key with no metadata row takes the `INSERT`
branch, creating a metadata row stamped with the current (local) time, the
manager's configured TTL and the `fetch_count` column default 0 — so that
immediately afterwards `is_cache_valid(key)` is true precisely until
`ttl_seconds` have elapsed since the error was recorded, even though no
records were ever written for the key. -/
theorem record_error_creates_metadata (m : CacheManager) (db : DB)
    (key msg : String) (tz t0 t : Int) (h : db.metaLookup key = none) :
    (record_error m db key msg tz t0).metaLookup key
      = some ⟨key, pyNow tz t0, m.ttl_seconds, 0, some msg⟩ ∧
    is_cache_valid (record_error m db key msg tz t0) key tz t
      = decide (t < t0 + m.ttl_seconds) ∧
    (record_error m db key msg tz t0).mergeRequests = db.mergeRequests ∧
    (record_error m db key msg tz t0).workItems = db.workItems := by
  have hmeta : (record_error m db key msg tz t0).cacheMetadata
      = db.cacheMetadata ++ [⟨key, pyNow tz t0, m.ttl_seconds, 0, some msg⟩] := by
    rw [record_error, h]
  have hlook : (record_error m db key msg tz t0).metaLookup key
      = some ⟨key, pyNow tz t0, m.ttl_seconds, 0, some msg⟩ := by
    rw [DB.metaLookup, hmeta, find?_append_of_none _ _ _ h]
    simp [List.find?_cons]
  refine ⟨hlook, ?_, by rw [record_error, h], by rw [record_error, h]⟩
  simp only [is_cache_valid, hlook]
  simp only [pyNow]
  rw [decide_eq_decide]
  omega

theorem record_error_creates_metadata_w :
    (record_error cm300 dbEmpty "work_items" "Jira: boom" 0 100).metaLookup
        "work_items" = some ⟨"work_items", pyNow 0 100, (cm300).ttl_seconds, 0,
          some "Jira: boom"⟩ ∧
    is_cache_valid (record_error cm300 dbEmpty "work_items" "Jira: boom" 0 100)
        "work_items" 0 150 = decide ((150 : Int) < 100 + (cm300).ttl_seconds) ∧
    (record_error cm300 dbEmpty "work_items" "Jira: boom" 0 100).mergeRequests
      = dbEmpty.mergeRequests ∧
    (record_error cm300 dbEmpty "work_items" "Jira: boom" 0 100).workItems
      = dbEmpty.workItems :=
  record_error_creates_metadata cm300 dbEmpty "work_items" "Jira: boom" 0 100 150
    (by decide)

theorem setWIs_not_mem_err (l : List WorkItem) (jira todoist : AdapterOutcome) :
    CacheWrite.setWIs l ∉ work_items_err_writes jira todoist := by
  cases jira <;> cases todoist <;> simp [work_items_err_writes]

/-- C8 (amended): in the work-items section the orchestrator calls `set` iff
the accumulated item list (cached items shown plus successfully fetched items)
is non-empty — an authoritative empty result does not overwrite stale cache
(`if items:` skips the write); in the merge-request section both partition
writes (which may carry empty lists) are issued when the availability, auth
and configuration gates pass and all three fetch calls return, and no write at
all is issued when any of the three fetch calls raises. -/
theorem authoritative_empty_amended :
    (∀ (cached : Option (List WorkItem)) (jira todoist : AdapterOutcome),
      ((∃ l, CacheWrite.setWIs l ∈ fetch_work_items_writes false cached jira
          todoist) ↔ work_items_combined cached jira todoist ≠ []) ∧
      (work_items_combined cached jira todoist ≠ [] →
        fetch_work_items_writes false cached jira todoist
          = work_items_err_writes jira todoist
            ++ [CacheWrite.setWIs (sortWorkItems
                (work_items_combined cached jira todoist))])) ∧
    (∀ (env : MREnv) (assigned pending authored : List MergeRequest),
      env.offline_mode = false → env.is_available = true →
      env.check_auth = FetchOutcome.ok true →
      (∃ g, env.gitlab_group = some g) →
      env.fetch_assigned = FetchOutcome.ok assigned →
      env.fetch_review = FetchOutcome.ok pending →
      env.fetch_authored = FetchOutcome.ok authored →
      fetch_merge_requests_writes env
        = [CacheWrite.setMRs "assigned" (combined_assigned assigned pending),
           CacheWrite.setMRs "opened" authored]) ∧
    (∀ env : MREnv,
      (env.fetch_assigned.isRaised || env.fetch_review.isRaised ||
        env.fetch_authored.isRaised) = true →
      fetch_merge_requests_writes env = []) := by
  refine ⟨?_, ?_, ?_⟩
  · intro cached jira todoist
    cases hemp : (work_items_combined cached jira todoist).isEmpty with
    | true =>
        have hnil : work_items_combined cached jira todoist = [] := by
          simpa using hemp
        constructor
        · constructor
          · rintro ⟨l, hl⟩
            exfalso
            rw [fetch_work_items_writes] at hl
            simp only [Bool.false_eq_true, if_false, hemp, if_true,
              List.append_nil] at hl
            exact setWIs_not_mem_err l jira todoist hl
          · intro hne
            exact absurd hnil hne
        · intro hne
          exact absurd hnil hne
    | false =>
        have hne : work_items_combined cached jira todoist ≠ [] := by
          intro hc
          rw [hc] at hemp
          simp at hemp
        have heq : fetch_work_items_writes false cached jira todoist
            = work_items_err_writes jira todoist
              ++ [CacheWrite.setWIs (sortWorkItems
                  (work_items_combined cached jira todoist))] := by
          rw [fetch_work_items_writes]
          simp only [Bool.false_eq_true, if_false, hemp]
        constructor
        · constructor
          · intro _
            exact hne
          · intro _
            exact ⟨sortWorkItems (work_items_combined cached jira todoist), by
              rw [heq]
              exact List.mem_append_right _ (List.mem_singleton.mpr rfl)⟩
        · intro _
          exact heq
  · intro env assigned pending authored h1 h2 h3 hg h5 h6 h7
    obtain ⟨g, hg⟩ := hg
    rw [fetch_merge_requests_writes]
    simp only [h1, h2, h3, hg, h5, h6, h7, Bool.false_eq_true, if_false,
      Bool.not_true]
  · intro env h
    obtain ⟨om, avail, auth, grp, fa, fr, fau⟩ := env
    simp only [FetchOutcome.isRaised] at h
    rcases auth with b | msg
    · cases b <;> cases om <;> cases avail <;> cases grp <;>
        rcases fa with la | ma <;> rcases fr with lr | mr0 <;>
        rcases fau with lu | mu <;>
        simp_all [fetch_merge_requests_writes, FetchOutcome.isRaised]
    · cases om <;> cases avail <;> cases grp <;>
        rcases fa with la | ma <;> rcases fr with lr | mr0 <;>
        rcases fau with lu | mu <;>
        simp_all [fetch_merge_requests_writes, FetchOutcome.isRaised]

theorem authoritative_empty_amended_w :
    fetch_merge_requests_writes envEx
      = [CacheWrite.setMRs "assigned" (combined_assigned [mrEx1] [mrEx2]),
         CacheWrite.setMRs "opened" []] :=
  authoritative_empty_amended.2.1 envEx [mrEx1] [mrEx2] [] rfl rfl rfl
    ⟨"mygroup", rfl⟩ rfl rfl rfl
